import Mathlib

/-!
# Verification of the uqbar process_lib typed messaging layer

A shallow embedding of the library's identity module (`PackageId`,
`ProcessId`, `Address` parsing and formatting), message model, request
builder, and VFS file-access client, with theorems settling the spec's
claims about them.

Strings are modelled as `List Char` (Rust `String`/`&str`), byte vectors
as `List Nat` (Rust `Vec<u8>`). Rust's `str::split(delim)` iterator is
modelled by `splitOn` below, which matches its semantics: the number of
segments is one plus the number of delimiter occurrences, and the empty
string splits to `[[]]`.
-/

/-- Rust `str::split(c)` on a character: yields the (possibly empty)
chunks between occurrences of `c`. Never returns an empty list. -/
def splitOn (delim : Char) : List Char → List (List Char)
  | [] => [[]]
  | c :: cs =>
    let rest := splitOn delim cs
    if c = delim then [] :: rest
    else
      match rest with
      | [] => [[c]]
      | r :: rs => (c :: r) :: rs

/-- Error type for `PackageId::from_str` and `ProcessId::from_str`
(src/lib.rs `ProcessIdParseError`). -/
inductive ProcessIdParseError where
  | TooManyColons
  | MissingField
deriving DecidableEq, Repr

/-- Error type for `Address::from_str` (src/lib.rs `AddressParseError`). -/
inductive AddressParseError where
  | TooManyColons
  | MissingNodeId
  | MissingField
deriving DecidableEq, Repr

/-- src/lib.rs `PackageId`: name of a package and of its publisher. -/
structure PackageId where
  package_name : List Char
  publisher_node : List Char
deriving DecidableEq, Repr

/-- src/lib.rs `ProcessId`: process name, package name, publisher node. -/
structure ProcessId where
  process_name : List Char
  package_name : List Char
  publisher_node : List Char
deriving DecidableEq, Repr

/-- src/lib.rs `Address`: a node name and a process identity. -/
structure Address where
  node : List Char
  process : ProcessId
deriving DecidableEq, Repr

/-- `PackageId::from_str`: split on colons into exactly 2 segments.
Mirrors the iterator protocol of the source: the first two `next()`
calls must succeed (`MissingField` otherwise) and a third segment is
`TooManyColons`. -/
def PackageId.from_str (input : List Char) : Except ProcessIdParseError PackageId :=
  match splitOn ':' input with
  | [] => .error .MissingField
  | [_] => .error .MissingField
  | [package_name, publisher_node] => .ok ⟨package_name, publisher_node⟩
  | _ => .error .TooManyColons

/-- `PackageId::to_string`: `"<package_name>:<publisher_node>"`. -/
def PackageId.to_string (p : PackageId) : List Char :=
  p.package_name ++ ':' :: p.publisher_node

/-- `ProcessId::from_str`: split on colons into exactly 3 segments. -/
def ProcessId.from_str (input : List Char) : Except ProcessIdParseError ProcessId :=
  match splitOn ':' input with
  | [] => .error .MissingField
  | [_] => .error .MissingField
  | [_, _] => .error .MissingField
  | [process_name, package_name, publisher_node] =>
      .ok ⟨process_name, package_name, publisher_node⟩
  | _ => .error .TooManyColons

/-- `ProcessId::to_string` (also its `Display` impl):
`"<process_name>:<package_name>:<publisher_node>"`. -/
def ProcessId.to_string (p : ProcessId) : List Char :=
  p.process_name ++ ':' :: (p.package_name ++ ':' :: p.publisher_node)

/-- `Address::from_str`: split on `'@'`, take the first chunk as the node,
then split the second chunk on colons into exactly 3 segments. Mirrors
the source's iterator protocol: only the first two `'@'`-chunks are ever
requested, so any text after a second `'@'` is ignored. -/
def Address.from_str (input : List Char) : Except AddressParseError Address :=
  match splitOn '@' input with
  | [] => .error .MissingField
  | [_] => .error .MissingNodeId
  | node :: rest :: _ =>
    match splitOn ':' rest with
    | [] => .error .MissingField
    | [_] => .error .MissingField
    | [_, _] => .error .MissingField
    | [process_name, package_name, publisher_node] =>
        .ok ⟨node, ⟨process_name, package_name, publisher_node⟩⟩
    | _ => .error .TooManyColons

/-- `Address::to_string`: `"<node>@<process canonical form>"`. -/
def Address.to_string (a : Address) : List Char :=
  a.node ++ '@' :: a.process.to_string

/-- `impl PartialEq<&str> for ProcessId`: a `ProcessId` equals a raw
string iff its canonical form equals the string exactly. -/
def ProcessId.eq_str (x : ProcessId) (s : List Char) : Bool :=
  decide (x.to_string = s)

/-- `impl PartialEq<ProcessId> for &str`: the mirrored direction. -/
def str_eq_process_id (s : List Char) (x : ProcessId) : Bool :=
  decide (s = x.to_string)

/-! ## Splitting lemmas -/

theorem splitOn_ne_nil (d : Char) : ∀ (a : List Char), splitOn d a ≠ []
  | [], h => by simp [splitOn] at h
  | c :: cs, h => by
    by_cases hc : c = d
    · simp [splitOn, hc] at h
    · simp only [splitOn, if_neg hc] at h
      rcases he : splitOn d cs with _ | ⟨r, rs⟩ <;> simp [he] at h

theorem splitOn_of_not_mem (d : Char) :
    ∀ (a : List Char), d ∉ a → splitOn d a = [a]
  | [], _ => rfl
  | c :: cs, h => by
    have hc : ¬ c = d := fun e => h (e ▸ List.mem_cons_self c cs)
    have ih := splitOn_of_not_mem d cs (fun m => h (List.mem_cons_of_mem c m))
    simp [splitOn, hc, ih]

theorem splitOn_append (d : Char) :
    ∀ (a rest : List Char), d ∉ a →
      splitOn d (a ++ d :: rest) = a :: splitOn d rest
  | [], rest, _ => by simp [splitOn]
  | c :: cs, rest, h => by
    have hc : ¬ c = d := fun e => h (e ▸ List.mem_cons_self c cs)
    have ih := splitOn_append d cs rest (fun m => h (List.mem_cons_of_mem c m))
    simp only [List.cons_append, splitOn, if_neg hc]
    rw [show cs.append (d :: rest) = cs ++ d :: rest from rfl, ih]

theorem splitOn_two (d : Char) (a b : List Char) (ha : d ∉ a) (hb : d ∉ b) :
    splitOn d (a ++ d :: b) = [a, b] := by
  rw [splitOn_append d a b ha, splitOn_of_not_mem d b hb]

theorem splitOn_three (d : Char) (a b c : List Char)
    (ha : d ∉ a) (hb : d ∉ b) (hc : d ∉ c) :
    splitOn d (a ++ d :: (b ++ d :: c)) = [a, b, c] := by
  rw [splitOn_append d a _ ha, splitOn_two d b c hb hc]

theorem not_mem_process_to_string (p : ProcessId)
    (h1 : '@' ∉ p.process_name) (h2 : '@' ∉ p.package_name)
    (h3 : '@' ∉ p.publisher_node) : '@' ∉ p.to_string := by
  intro hmem
  rw [ProcessId.to_string] at hmem
  rcases List.mem_append.1 hmem with h | h
  · exact h1 h
  rcases List.mem_cons.1 h with h | h
  · exact absurd h (by decide)
  rcases List.mem_append.1 h with h | h
  · exact h2 h
  rcases List.mem_cons.1 h with h | h
  · exact absurd h (by decide)
  exact h3 h

/-- C1: For every identity value with delimiter-free fields, parsing the
canonical textual form returns the original value: `from_str (to_string x)
= Ok x` for `PackageId`, `ProcessId` and `Address`. -/
theorem identity_roundtrip :
    (∀ p : PackageId, ':' ∉ p.package_name → ':' ∉ p.publisher_node →
      PackageId.from_str p.to_string = .ok p) ∧
    (∀ p : ProcessId, ':' ∉ p.process_name → ':' ∉ p.package_name →
      ':' ∉ p.publisher_node → ProcessId.from_str p.to_string = .ok p) ∧
    (∀ a : Address,
      ':' ∉ a.node → '@' ∉ a.node →
      ':' ∉ a.process.process_name → '@' ∉ a.process.process_name →
      ':' ∉ a.process.package_name → '@' ∉ a.process.package_name →
      ':' ∉ a.process.publisher_node → '@' ∉ a.process.publisher_node →
      Address.from_str a.to_string = .ok a) := by
  refine ⟨fun p h1 h2 => ?_, fun p h1 h2 h3 => ?_, fun a hn1 hn2 h1 h1' h2 h2' h3 h3' => ?_⟩
  · rw [PackageId.from_str, PackageId.to_string, splitOn_two ':' _ _ h1 h2]
  · rw [ProcessId.from_str, ProcessId.to_string, splitOn_three ':' _ _ _ h1 h2 h3]
  · have e2 : splitOn ':' a.process.to_string =
        [a.process.process_name, a.process.package_name, a.process.publisher_node] := by
      rw [ProcessId.to_string]
      exact splitOn_three ':' _ _ _ h1 h2 h3
    rw [Address.from_str, Address.to_string,
      splitOn_two '@' _ _ hn2 (not_mem_process_to_string a.process h1' h2' h3')]
    simp only [e2]

/-- Witness for C1 at concrete identities. -/
theorem identity_roundtrip_witness :
    PackageId.from_str (PackageId.to_string ⟨"app".data, "alice".data⟩) =
      .ok ⟨"app".data, "alice".data⟩ ∧
    ProcessId.from_str (ProcessId.to_string ⟨"proc".data, "app".data, "alice".data⟩) =
      .ok ⟨"proc".data, "app".data, "alice".data⟩ ∧
    Address.from_str (Address.to_string ⟨"node1".data, "vfs".data, "sys".data, "uqbar".data⟩) =
      .ok ⟨"node1".data, "vfs".data, "sys".data, "uqbar".data⟩ :=
  ⟨identity_roundtrip.1 _ (by decide) (by decide),
   identity_roundtrip.2.1 _ (by decide) (by decide) (by decide),
   identity_roundtrip.2.2 _ (by decide) (by decide) (by decide) (by decide)
     (by decide) (by decide) (by decide) (by decide)⟩

/-- C2: `Address::from_str` fails with `MissingNodeId` when the input has
no `'@'`; `ProcessId::from_str` fails with `MissingField` on exactly two
colon-separated segments and with `TooManyColons` on more than three; an
address whose process part (the text after its only `'@'`) has more than
three colon-separated segments fails with `TooManyColons`. -/
theorem parse_error_conditions :
    (∀ s : List Char, '@' ∉ s → Address.from_str s = .error .MissingNodeId) ∧
    (∀ s : List Char, (splitOn ':' s).length = 2 →
      ProcessId.from_str s = .error .MissingField) ∧
    (∀ s : List Char, 3 < (splitOn ':' s).length →
      ProcessId.from_str s = .error .TooManyColons) ∧
    (∀ node rest : List Char, '@' ∉ node → '@' ∉ rest →
      3 < (splitOn ':' rest).length →
      Address.from_str (node ++ '@' :: rest) = .error .TooManyColons) := by
  refine ⟨fun s h => ?_, fun s h => ?_, fun s h => ?_, fun node rest hn hr h => ?_⟩
  · rw [Address.from_str, splitOn_of_not_mem '@' s h]
  · rcases hs : splitOn ':' s with _ | ⟨a, _ | ⟨b, _ | ⟨c, l⟩⟩⟩ <;>
      rw [hs] at h <;> simp at h
    rw [ProcessId.from_str, hs]
  · rcases hs : splitOn ':' s with _ | ⟨a, _ | ⟨b, _ | ⟨c, _ | ⟨e, l⟩⟩⟩⟩ <;>
      rw [hs] at h <;> simp at h
    rw [ProcessId.from_str, hs]
  · rw [Address.from_str, splitOn_two '@' _ _ hn hr]
    rcases hs : splitOn ':' rest with _ | ⟨a, _ | ⟨b, _ | ⟨c, _ | ⟨e, l⟩⟩⟩⟩ <;>
      rw [hs] at h <;> simp at h
    simp only [hs]

/-- Witness for C2 at concrete inputs. -/
theorem parse_error_conditions_witness :
    Address.from_str "node1vfs:sys:uqbar".data = .error .MissingNodeId ∧
    ProcessId.from_str "app:alice".data = .error .MissingField ∧
    ProcessId.from_str "a:b:c:d".data = .error .TooManyColons ∧
    Address.from_str ("node1".data ++ '@' :: "a:b:c:d".data) = .error .TooManyColons :=
  ⟨parse_error_conditions.1 _ (by decide),
   parse_error_conditions.2.1 _ (by decide),
   parse_error_conditions.2.2.1 _ (by decide),
   parse_error_conditions.2.2.2 _ _ (by decide) (by decide) (by decide)⟩

/-- C3 counterexample: the input `"a@b:c:d@e"` contains two `'@'`
delimiters, yet `Address::from_str` succeeds on it (the text after the
second `'@'` is silently dropped), contradicting the claim that every
input with more than one `'@'` is rejected. -/
theorem address_extra_at_counterexample :
    ("a@b:c:d@e".data.count '@' = 2) ∧
    Address.from_str "a@b:c:d@e".data =
      .ok ⟨"a".data, ⟨"b".data, "c".data, "d".data⟩⟩ := by
  constructor
  · decide
  · rfl

/-- C3 amended: colon-segment strictness holds (see the `TooManyColons`
results above), but `'@'`-strictness does not: `Address::from_str` only
ever inspects the first two `'@'`-chunks, so everything after a second
`'@'` is ignored and parsing behaves exactly as if the input were
truncated there — in particular an input with more than one `'@'` can
parse successfully. -/
theorem address_from_str_ignores_extra_at :
    ∀ (node rest extra : List Char), '@' ∉ node → '@' ∉ rest →
      Address.from_str (node ++ '@' :: (rest ++ '@' :: extra)) =
        Address.from_str (node ++ '@' :: rest) := by
  intro node rest extra hn hr
  rw [Address.from_str, Address.from_str, splitOn_two '@' _ _ hn hr,
    splitOn_append '@' _ _ hn, splitOn_append '@' _ _ hr]

/-- Witness for the C3 amended theorem at a concrete input. -/
theorem address_from_str_ignores_extra_at_witness :
    Address.from_str ("a".data ++ '@' :: ("b:c:d".data ++ '@' :: "e".data)) =
      Address.from_str ("a".data ++ '@' :: "b:c:d".data) :=
  address_from_str_ignores_extra_at _ _ _ (by decide) (by decide)

/-- C9: cross-type equality between a `ProcessId` and a raw string holds
iff the canonical form equals the string exactly, and the two directions
(`ProcessId == &str` and `&str == ProcessId`) always agree. -/
theorem process_id_str_eq_symm :
    ∀ (x : ProcessId) (s : List Char),
      (x.eq_str s = true ↔ x.to_string = s) ∧
      x.eq_str s = str_eq_process_id s x := by
  intro x s
  constructor
  · simp [ProcessId.eq_str]
  · exact decide_eq_decide.mpr eq_comm

/-- Witness for C9 at a concrete identity and string. -/
theorem process_id_str_eq_symm_witness :
    ProcessId.eq_str ⟨"a".data, "b".data, "c".data⟩ "a:b:c".data = true :=
  ((process_id_str_eq_symm ⟨"a".data, "b".data, "c".data⟩ "a:b:c".data).1).mpr (by decide)

/-! ## Message model and request builder -/

/-- Modelled from the spec: `Capability` (declared in the wit bindings,
not under the provided sources) is an opaque grantable permission token
scoped to an `Address`. -/
structure Capability where
  issuer : Address
  params : List Char
deriving DecidableEq, Repr

/-- The out-of-band binary attachment (`Payload` in src/lib.rs's era):
an optional mime type and bytes. -/
structure Payload where
  mime : Option (List Char)
  bytes : List Nat
deriving DecidableEq, Repr

/-- src/types/message.rs `Message`: the tagged union over inbound
requests and responses. -/
inductive Message where
  | Request (source : Address) (expects_response : Option Nat) (body : List Nat)
      (metadata : Option (List Char)) (capabilities : List Capability)
  | Response (source : Address) (body : List Nat) (metadata : Option (List Char))
      (context : Option (List Nat)) (capabilities : List Capability)
deriving DecidableEq, Repr

/-- `Message::context`: always `None` for requests. -/
def Message.context : Message → Option (List Nat)
  | .Request _ _ _ _ _ => none
  | .Response _ _ _ context _ => context

/-- `Message::is_request`. -/
def Message.is_request : Message → Bool
  | .Request _ _ _ _ _ => true
  | .Response _ _ _ _ _ => false

/-- C5: a `Message` constructed as the `Request` variant yields
`context() = none` whatever its other fields are, and a message whose
`context()` is non-`None` cannot be the `Request` variant. -/
theorem request_message_context_none :
    (∀ (source : Address) (er : Option Nat) (body : List Nat)
        (md : Option (List Char)) (caps : List Capability),
      (Message.Request source er body md caps).context = none) ∧
    (∀ m : Message, m.context.isSome = true → m.is_request = false) := by
  refine ⟨fun _ _ _ _ _ => rfl, fun m h => ?_⟩
  cases m with
  | Request _ _ _ _ _ => simp [Message.context] at h
  | Response _ _ _ _ _ => rfl

/-- Witness for C5: a concrete `Response` with a context is not a request. -/
theorem request_message_context_none_witness :
    Message.is_request
      (Message.Response ⟨"n".data, ⟨"p".data, "q".data, "r".data⟩⟩
        [] none (some [7]) []) = false :=
  request_message_context_none.2 _ rfl

/-- The wit-bindings `Request` record handed to the transport boundary
(src/lib.rs `wit::Request`). -/
structure WitRequest where
  inherit : Bool
  expects_response : Option Nat
  ipc : List Nat
  metadata : Option (List Char)
deriving DecidableEq, Repr

/-- The wit-bindings `Response` record (src/lib.rs `wit::Response`). -/
structure WitResponse where
  inherit : Bool
  ipc : List Nat
  metadata : Option (List Char)
deriving DecidableEq, Repr

/-- The wit-bindings `Message` matched by src/lib.rs (`Request(req)` or
`Response((resp, context))`). -/
inductive WitMessage where
  | Request (r : WitRequest)
  | Response (r : WitResponse) (context : Option (List Nat))
deriving DecidableEq, Repr

/-- Modelled from the spec: `SendError` (declared in the wit bindings,
not under the provided sources) describes why no response was obtained:
timeout elapsed, target unreachable, or target process not found. The
library treats it as an opaque carried value. -/
inductive SendError where
  | Timeout
  | Unreachable
  | ProcessNotFound
deriving DecidableEq, Repr

/-- The `anyhow!` error values produced by the builder terminal
operations in src/lib.rs. -/
inductive AnyhowError where
  | missingFields
  | didNotReceiveResponse
deriving DecidableEq, Repr

/-- What `Request::send` hands to the host `send_request` boundary. -/
structure SentRequest where
  target : Address
  request : WitRequest
  context : Option (List Nat)
  payload : Option Payload
deriving DecidableEq, Repr

/-- src/lib.rs `Request`: the staged request-builder state. -/
structure Request where
  target : Option Address
  inherit : Bool
  timeout : Option Nat
  ipc : Option (List Nat)
  metadata : Option (List Char)
  payload : Option Payload
  context : Option (List Nat)
deriving DecidableEq, Repr

/-- `Request::new()`: all fields unset, `inherit = false`. -/
def Request.new : Request :=
  ⟨none, false, none, none, none, none, none⟩

/-- `Request::send`: the fire-and-forget terminal operation. The `.ok`
value records exactly what the source hands to the host `send_request`
call (target, assembled wit request, context, payload); on the error
branch nothing reaches the transport boundary. -/
def Request.send (r : Request) : Except AnyhowError SentRequest :=
  match r.target, r.ipc with
  | some target, some ipc =>
      .ok ⟨target, ⟨r.inherit, r.timeout, ipc, r.metadata⟩, r.context, r.payload⟩
  | _, _ => .error .missingFields

/-- C4: `Request::send` returns the missing-fields error exactly when the
target or the body (`ipc`) is unset — in which case nothing is handed to
the transport — and otherwise hands the assembled request to
`send_request` and succeeds. -/
theorem request_send_missing_fields :
    ∀ r : Request,
      (r.send = .error .missingFields ↔ (r.target = none ∨ r.ipc = none)) ∧
      (∀ t i, r.target = some t → r.ipc = some i →
        r.send = .ok ⟨t, ⟨r.inherit, r.timeout, i, r.metadata⟩, r.context, r.payload⟩) := by
  intro r
  obtain ⟨tgt, inh, tmo, ipc, md, pl, ctx⟩ := r
  cases tgt <;> cases ipc <;> simp [Request.send]

/-- Witness for C4: the empty builder errors; a builder with target and
body set hands the assembled request over. -/
theorem request_send_missing_fields_witness :
    Request.new.send = .error .missingFields ∧
    (Request.mk (some ⟨"n".data, ⟨"p".data, "q".data, "r".data⟩⟩) false none
        (some [114]) none none none).send =
      .ok ⟨⟨"n".data, ⟨"p".data, "q".data, "r".data⟩⟩,
           ⟨false, none, [114], none⟩, none, none⟩ :=
  ⟨((request_send_missing_fields Request.new).1).mpr (Or.inl rfl),
   (request_send_missing_fields _).2 _ _ rfl rfl⟩

/-- The host `send_and_await_response` boundary, modelled as a function
from what the library hands over (target, assembled wit request,
optional payload) to the delivered outcome. -/
def Transport : Type :=
  Address → WitRequest → Option Payload → Except SendError (Address × WitMessage)

/-- `Request::send_and_await_response`: requires target and body, forces
`expects_response = Some timeout`, and blocks on the transport. -/
def Request.send_and_await_response (r : Request) (timeout : Nat)
    (transport : Transport) :
    Except AnyhowError (Except SendError (Address × WitMessage)) :=
  match r.target, r.ipc with
  | some target, some ipc =>
      .ok (transport target ⟨r.inherit, some timeout, ipc, r.metadata⟩ r.payload)
  | _, _ => .error .missingFields

/-- `Request::send_and_await_response_unpack`: calls
`send_and_await_response`, passes a `SendError` through, unpacks a
delivered `Response` into `(source, response, context)`, and fails with
the protocol-violation error if a `Request` was delivered. -/
def Request.send_and_await_response_unpack (r : Request) (timeout : Nat)
    (transport : Transport) :
    Except AnyhowError (Except SendError (Address × WitResponse × Option (List Nat))) :=
  match r.send_and_await_response timeout transport with
  | .error e => .error e
  | .ok (.error e) => .ok (.error e)
  | .ok (.ok (source, .Response resp context)) => .ok (.ok (source, resp, context))
  | .ok (.ok (_, .Request _)) => .error .didNotReceiveResponse

/-- C8: with target and body set, `send_and_await_response_unpack` hands
the same assembled request to the transport as `send_and_await_response`
and then: passes a `SendError` through as a value, unpacks a delivered
`Response` into `(source, response, context)`, and fails with the
protocol-violation error when a `Request` is delivered instead. -/
theorem send_and_await_unpack_cases :
    ∀ (r : Request) (timeout : Nat) (transport : Transport)
      (t : Address) (i : List Nat),
      r.target = some t → r.ipc = some i →
      (r.send_and_await_response timeout transport =
        .ok (transport t ⟨r.inherit, some timeout, i, r.metadata⟩ r.payload)) ∧
      (∀ e, transport t ⟨r.inherit, some timeout, i, r.metadata⟩ r.payload = .error e →
        r.send_and_await_response_unpack timeout transport = .ok (.error e)) ∧
      (∀ src resp ctx,
        transport t ⟨r.inherit, some timeout, i, r.metadata⟩ r.payload =
          .ok (src, .Response resp ctx) →
        r.send_and_await_response_unpack timeout transport =
          .ok (.ok (src, resp, ctx))) ∧
      (∀ src req,
        transport t ⟨r.inherit, some timeout, i, r.metadata⟩ r.payload =
          .ok (src, .Request req) →
        r.send_and_await_response_unpack timeout transport =
          .error .didNotReceiveResponse) := by
  intro r timeout transport t i ht hi
  obtain ⟨tgt, inh, tmo, ipc, md, pl, ctx⟩ := r
  simp only at ht hi
  subst ht
  subst hi
  refine ⟨rfl, fun e he => ?_, fun src resp ctx' he => ?_, fun src req he => ?_⟩ <;>
    simp [Request.send_and_await_response_unpack, Request.send_and_await_response, he]

/-- Witness for C8 at a concrete builder and three concrete transports. -/
theorem send_and_await_unpack_cases_witness :
    (Request.mk (some ⟨"n".data, ⟨"p".data, "q".data, "r".data⟩⟩) false none
        (some [1]) none none none).send_and_await_response_unpack 5
        (fun _ _ _ => .error .Timeout) = .ok (.error .Timeout) ∧
    (Request.mk (some ⟨"n".data, ⟨"p".data, "q".data, "r".data⟩⟩) false none
        (some [1]) none none none).send_and_await_response_unpack 5
        (fun _ _ _ => .ok (⟨"m".data, ⟨"p".data, "q".data, "r".data⟩⟩,
          .Response ⟨false, [2], none⟩ (some [3]))) =
      .ok (.ok (⟨"m".data, ⟨"p".data, "q".data, "r".data⟩⟩,
        ⟨false, [2], none⟩, some [3])) ∧
    (Request.mk (some ⟨"n".data, ⟨"p".data, "q".data, "r".data⟩⟩) false none
        (some [1]) none none none).send_and_await_response_unpack 5
        (fun _ _ _ => .ok (⟨"m".data, ⟨"p".data, "q".data, "r".data⟩⟩,
          .Request ⟨false, none, [4], none⟩)) = .error .didNotReceiveResponse :=
  ⟨((send_and_await_unpack_cases _ 5 _ _ _ rfl rfl).2.1) _ rfl,
   ((send_and_await_unpack_cases _ 5 _ _ _ rfl rfl).2.2.1) _ _ _ rfl,
   ((send_and_await_unpack_cases _ 5 _ _ _ rfl rfl).2.2.2) _ _ rfl⟩

/-! ## VFS file-access protocol client (src/vfs/file.rs)

`VfsAction`, `VfsRequest`, `VfsResponse` and the associated driver types
are declared in `vfs/mod.rs`, which is not among the provided sources;
they are modelled from the spec (sections 4.6 and 6). The serde boundary
is modelled by carrying decode results instead of raw JSON bytes. -/

/-- Modelled from the spec: the driver's I/O error kind. The spec names
`NotFound` explicitly; other kinds are opaque to this client. -/
inductive IoErrorKind where
  | NotFound
  | Other (code : Nat)
deriving DecidableEq, Repr

/-- Modelled from the spec: `FileMetadata` reports a file's type and
length. -/
structure FileMetadata where
  file_type : Nat
  len : Nat
deriving DecidableEq, Repr

/-- Modelled from the spec: `SeekFrom`, the seek origin carried by the
`Seek` action. -/
inductive SeekFrom where
  | Start (n : Nat)
  | End (n : Int)
  | Current (n : Int)
deriving DecidableEq, Repr

/-- Modelled from the spec (section 4.6): the VFS action enum encoded as
the request body. -/
inductive VfsAction where
  | Read
  | ReadExact (n : Nat)
  | Write
  | WriteAt
  | Seek (seek_from : SeekFrom)
  | SetLen (n : Nat)
  | Metadata
  | SyncAll
  | CreateDrive
  | OpenFile (create : Bool)
  | CreateFile
deriving DecidableEq, Repr

/-- The request record serialized as the body of every vfs request
(`VfsRequest { path, action }`). -/
structure VfsRequest where
  path : List Char
  action : VfsAction
deriving DecidableEq, Repr

/-- Modelled from the spec (section 6): the driver's response enum
decoded from the response body. -/
inductive VfsResponse where
  | Ok
  | Read
  | SeekFrom (n : Nat)
  | Metadata (m : FileMetadata)
  | Err (e : IoErrorKind)
deriving DecidableEq, Repr

/-- The inbound message as matched by src/vfs/file.rs
(`Message::Response { ipc, .. }` against everything else). The serde
boundary is modelled by carrying the decode result of the body: `none`
stands for bytes that do not deserialize to a `VfsResponse`. -/
inductive VfsMessage where
  | Request
  | Response (ipc : Option VfsResponse)
deriving DecidableEq, Repr

/-- The error values surfaced by the vfs client operations: the driver's
I/O error (`VfsResponse::Err(e)` becomes `Err(e.into())`) or one of the
`anyhow!` protocol errors of src/vfs/file.rs. -/
inductive VfsClientError where
  | ioError (e : IoErrorKind)
  | noReadPayload
  | badResponseBody
  | unexpectedResponse
  | unexpectedMessage
deriving DecidableEq, Repr

/-- What a vfs operation hands to the transport: the fixed driver target
`("our", "vfs", "sys", "uqbar")`, the encoded `VfsRequest`, and the
timeout passed to `send_and_await_response`. -/
structure VfsCall where
  target_node : List Char
  target_process : ProcessId
  request : VfsRequest
  timeout : Nat
deriving DecidableEq, Repr

/-- src/vfs/file.rs `File`: a path-addressed remote file handle. -/
structure File where
  path : List Char
deriving DecidableEq, Repr

/-- `File::read`: sends `VfsAction::Read` for this path to the vfs driver
with timeout 5 and interprets the delivered outcome: a `Read` response
yields the attached payload bytes (a protocol error without a payload),
an `Err` response yields the driver's I/O error, anything else a
protocol error. The pair records (what is sent, what is returned). -/
def File.read (f : File) (outcome : Except SendError VfsMessage)
    (payload : Option Payload) : VfsCall × Except VfsClientError (List Nat) :=
  (⟨"our".data, ⟨"vfs".data, "sys".data, "uqbar".data⟩, ⟨f.path, .Read⟩, 5⟩,
   match outcome with
   | .ok (.Response (some .Read)) =>
       match payload with
       | some p => .ok p.bytes
       | none => .error .noReadPayload
   | .ok (.Response (some (.Err e))) => .error (.ioError e)
   | .ok (.Response (some _)) => .error .unexpectedResponse
   | .ok (.Response none) => .error .badResponseBody
   | _ => .error .unexpectedMessage)

/-- The slice copy performed by `read_into`/`read_at`:
`let len = min(data.len(), buffer.len());
buffer[..len].copy_from_slice(&data[..len])`, returning the updated
buffer together with the count `len` of bytes copied. -/
def copy_into (data buffer : List Nat) : List Nat × Nat :=
  let len := min data.length buffer.length
  (data.take len ++ buffer.drop len, len)

/-- `File::read_into`: as `File::read`, but copies the delivered bytes
into the caller's buffer and returns the updated buffer with the count
of bytes copied. -/
def File.read_into (f : File) (buffer : List Nat)
    (outcome : Except SendError VfsMessage) (payload : Option Payload) :
    VfsCall × Except VfsClientError (List Nat × Nat) :=
  (⟨"our".data, ⟨"vfs".data, "sys".data, "uqbar".data⟩, ⟨f.path, .Read⟩, 5⟩,
   match outcome with
   | .ok (.Response (some .Read)) =>
       match payload with
       | some p => .ok (copy_into p.bytes buffer)
       | none => .error .noReadPayload
   | .ok (.Response (some (.Err e))) => .error (.ioError e)
   | .ok (.Response (some _)) => .error .unexpectedResponse
   | .ok (.Response none) => .error .badResponseBody
   | _ => .error .unexpectedMessage)

/-- `File::read_at`: as `File::read_into` but sends
`VfsAction::ReadExact(buffer.len())` instead of `Read`. -/
def File.read_at (f : File) (buffer : List Nat)
    (outcome : Except SendError VfsMessage) (payload : Option Payload) :
    VfsCall × Except VfsClientError (List Nat × Nat) :=
  (⟨"our".data, ⟨"vfs".data, "sys".data, "uqbar".data⟩,
    ⟨f.path, .ReadExact buffer.length⟩, 5⟩,
   match outcome with
   | .ok (.Response (some .Read)) =>
       match payload with
       | some p => .ok (copy_into p.bytes buffer)
       | none => .error .noReadPayload
   | .ok (.Response (some (.Err e))) => .error (.ioError e)
   | .ok (.Response (some _)) => .error .unexpectedResponse
   | .ok (.Response none) => .error .badResponseBody
   | _ => .error .unexpectedMessage)

/-- `create_drive`: builds the path `format!("/{}/{}", package_id, drive)`
(the `Display` of `PackageId` is its canonical `to_string` form), sends a
`CreateDrive` action for it with timeout 5, and returns the path on an
`Ok` driver response; every other outcome is an error. -/
def create_drive (package_id : PackageId) (drive : List Char)
    (outcome : Except SendError VfsMessage) :
    VfsCall × Except VfsClientError (List Char) :=
  let path := '/' :: (package_id.to_string ++ '/' :: drive)
  (⟨"our".data, ⟨"vfs".data, "sys".data, "uqbar".data⟩, ⟨path, .CreateDrive⟩, 5⟩,
   match outcome with
   | .ok (.Response (some .Ok)) => .ok path
   | .ok (.Response (some (.Err e))) => .error (.ioError e)
   | .ok (.Response (some _)) => .error .unexpectedResponse
   | .ok (.Response none) => .error .badResponseBody
   | _ => .error .unexpectedMessage)

/-- C6: `File::read` sends a `Read` action for its path to the vfs driver
with a 5-unit timeout; a delivered `Read` response with an attached blob
`[1,2,3]` yields exactly `[1,2,3]`; a `Read` response with no blob yields
the protocol error; an `Err` response yields the driver's I/O error. -/
theorem file_read_spec :
    ∀ (f : File) (outcome : Except SendError VfsMessage) (payload : Option Payload),
      ((File.read f outcome payload).1 =
        ⟨"our".data, ⟨"vfs".data, "sys".data, "uqbar".data⟩, ⟨f.path, .Read⟩, 5⟩) ∧
      (∀ mime, outcome = .ok (.Response (some .Read)) →
        payload = some ⟨mime, [1, 2, 3]⟩ →
        (File.read f outcome payload).2 = .ok [1, 2, 3]) ∧
      (outcome = .ok (.Response (some .Read)) → payload = none →
        (File.read f outcome payload).2 = .error .noReadPayload) ∧
      (∀ e, outcome = .ok (.Response (some (.Err e))) →
        (File.read f outcome payload).2 = .error (.ioError e)) := by
  intro f outcome payload
  refine ⟨rfl, fun mime ho hp => ?_, fun ho hp => ?_, fun e ho => ?_⟩
  · subst ho; subst hp; rfl
  · subst ho; subst hp; rfl
  · subst ho; rfl

/-- Witness for C6 at a concrete file, response and blob. -/
theorem file_read_spec_witness :
    (File.read ⟨"/a/x".data⟩ (.ok (.Response (some .Read)))
        (some ⟨none, [1, 2, 3]⟩)).2 = .ok [1, 2, 3] ∧
    (File.read ⟨"/a/x".data⟩ (.ok (.Response (some .Read))) none).2 =
      .error .noReadPayload ∧
    (File.read ⟨"/a/x".data⟩ (.ok (.Response (some (.Err .NotFound)))) none).2 =
      .error (.ioError .NotFound) :=
  ⟨(file_read_spec _ _ _).2.1 none rfl rfl,
   (file_read_spec _ _ _).2.2.1 rfl rfl,
   (file_read_spec _ _ _).2.2.2 .NotFound rfl⟩

/-- C7: `create_drive pkg drive` sends a `CreateDrive` action for the
path `"/" ++ canonical-form(pkg) ++ "/" ++ drive` with a 5-unit timeout;
it returns that exact path precisely when the driver answers `Ok`, and
its result is a success precisely in that case (every other response or
transport outcome is an error). -/
theorem create_drive_spec :
    ∀ (pkg : PackageId) (drive : List Char) (outcome : Except SendError VfsMessage),
      ((create_drive pkg drive outcome).1 =
        ⟨"our".data, ⟨"vfs".data, "sys".data, "uqbar".data⟩,
         ⟨'/' :: (pkg.to_string ++ '/' :: drive), .CreateDrive⟩, 5⟩) ∧
      ((create_drive pkg drive outcome).2 =
          .ok ('/' :: (pkg.to_string ++ '/' :: drive)) ↔
        outcome = .ok (.Response (some .Ok))) ∧
      (Except.isOk (create_drive pkg drive outcome).2 = true ↔
        outcome = .ok (.Response (some .Ok))) := by
  intro pkg drive outcome
  refine ⟨rfl, ?_⟩
  rcases outcome with e | m
  · simp [create_drive, Except.isOk, Except.toBool]
  · rcases m with _ | ipc
    · simp [create_drive, Except.isOk, Except.toBool]
    · rcases ipc with _ | r
      · simp [create_drive, Except.isOk, Except.toBool]
      · cases r <;> simp [create_drive, Except.isOk, Except.toBool]

/-- Witness for C7: the spec's scenario
`create_drive({app, alice}, "files")` yields `"/app:alice/files"` on an
`Ok` response, and a transport failure yields no success. -/
theorem create_drive_spec_witness :
    (create_drive ⟨"app".data, "alice".data⟩ "files".data
        (.ok (.Response (some .Ok)))).2 = .ok "/app:alice/files".data ∧
    Except.isOk (create_drive ⟨"app".data, "alice".data⟩ "files".data
        (.error .Timeout)).2 = false := by
  constructor
  · have h := ((create_drive_spec ⟨"app".data, "alice".data⟩ "files".data
        (.ok (.Response (some .Ok)))).2.1).mpr rfl
    rw [h]
    rfl
  · have h := (create_drive_spec ⟨"app".data, "alice".data⟩ "files".data
        (.error .Timeout)).2.2
    rcases hb : Except.isOk (create_drive ⟨"app".data, "alice".data⟩ "files".data
        (.error .Timeout)).2 with _ | _
    · rfl
    · exact absurd (h.mp hb) (by simp)

/-- C10: on a `Read` response with an attached blob, `File::read_into`
and `File::read_at` copy exactly `min(data.len(), buffer.len())` bytes
into the buffer's prefix and return that count: larger blobs are
silently truncated with no error, the buffer keeps its length (no
out-of-bounds write), and the bytes past the copied prefix are left
unchanged. -/
theorem read_into_truncation :
    ∀ (f : File) (buffer data : List Nat) (mime : Option (List Char)),
      ((File.read_into f buffer (.ok (.Response (some .Read)))
          (some ⟨mime, data⟩)).2 = .ok (copy_into data buffer)) ∧
      ((File.read_at f buffer (.ok (.Response (some .Read)))
          (some ⟨mime, data⟩)).2 = .ok (copy_into data buffer)) ∧
      ((copy_into data buffer).2 = min data.length buffer.length) ∧
      ((copy_into data buffer).1.length = buffer.length) ∧
      ((copy_into data buffer).1.take (min data.length buffer.length) =
        data.take (min data.length buffer.length)) ∧
      ((copy_into data buffer).1.drop (min data.length buffer.length) =
        buffer.drop (min data.length buffer.length)) := by
  intro f buffer data mime
  have hlen : (data.take (min data.length buffer.length)).length =
      min data.length buffer.length := by
    rw [List.length_take]
    omega
  refine ⟨rfl, rfl, rfl, ?_, ?_, ?_⟩
  · simp only [copy_into, List.length_append, List.length_take, List.length_drop]
    omega
  · simp only [copy_into]
    exact List.take_left' hlen
  · simp only [copy_into]
    exact List.drop_left' hlen
